import Mathlib

/-!
# Verification of the Al-TB SMC pattern analyzer and backtester

Shallow embedding of `src/patterns.py` (SMCPatternAnalyzer) and
`src/backtesting.py` (Backtester) over exact rational arithmetic,
with theorems checking the natural-language specification.
-/

set_option autoImplicit false

namespace AlTB

/-- Configuration record, from `src/config.py` (`TradingConfig`).
Only the fields consumed by the core are modelled. -/
structure TradingConfig where
  LIQUIDITY_THRESHOLD : ℚ
  IMBALANCE_THRESHOLD : ℚ
  POSITION_SIZE : ℚ
  MAX_POSITIONS : ℕ
  STOP_LOSS_PERCENT : ℚ
  TAKE_PROFIT_PERCENT : ℚ
  deriving DecidableEq, Repr

/-- The default values of `TradingConfig` in `src/config.py`. -/
def defaultConfig : TradingConfig where
  LIQUIDITY_THRESHOLD := 2/100
  IMBALANCE_THRESHOLD := 15/1000
  POSITION_SIZE := 1/100
  MAX_POSITIONS := 3
  STOP_LOSS_PERCENT := 2/100
  TAKE_PROFIT_PERCENT := 4/100

/-- One OHLC candle: a row of the pandas DataFrame, with its index
value carried as `timestamp`.  `open` is a Lean keyword, hence
`open_price`. -/
structure Candle where
  timestamp : ℚ
  open_price : ℚ
  high : ℚ
  low : ℚ
  close : ℚ
  deriving DecidableEq, Repr

/-- Default candle used by `List.getD`; the detectors only index in
range, so it is never read. -/
def dC : Candle := ⟨0, 0, 0, 0, 0⟩

inductive PatternKind where
  | bullish
  | bearish
  deriving DecidableEq, Repr

inductive LevelKind where
  | resistance
  | support
  deriving DecidableEq, Repr

/-- The `{'type', 'price', 'timestamp'}` records appended by
`identify_liquidity_levels`. -/
structure LiquidityLevel where
  kind : LevelKind
  price : ℚ
  timestamp : ℚ
  deriving DecidableEq, Repr

/-- The `{'type', 'top', 'bottom', 'timestamp'}` records appended by
`identify_order_blocks`. -/
structure OrderBlock where
  kind : PatternKind
  top : ℚ
  bottom : ℚ
  timestamp : ℚ
  deriving DecidableEq, Repr

/-- The `{'type', 'top', 'bottom', 'timestamp'}` records appended by
`identify_fair_value_gaps`. -/
structure FairValueGap where
  kind : PatternKind
  top : ℚ
  bottom : ℚ
  timestamp : ℚ
  deriving DecidableEq, Repr

/-! ## Pattern detectors, from `src/patterns.py` -/

/-- The levels contributed by index `i` of one iteration of the loop in
`SMCPatternAnalyzer.identify_liquidity_levels` (window = 5), with `c`
the candle at index `i`: a resistance if `high[i]` strictly exceeds the
5 highs on each side, and a support under the symmetric condition on
`low`. -/
def llAtCandle (df : List Candle) (i : ℕ) (c : Candle) : List LiquidityLevel :=
  (if ((List.range' (i - 5) 5).all fun j => decide ((df.getD j dC).high < c.high)) &&
      ((List.range' (i + 1) 5).all fun j => decide ((df.getD j dC).high < c.high)) then
    [⟨LevelKind.resistance, c.high, c.timestamp⟩]
  else []) ++
  (if ((List.range' (i - 5) 5).all fun j => decide (c.low < (df.getD j dC).low)) &&
      ((List.range' (i + 1) 5).all fun j => decide (c.low < (df.getD j dC).low)) then
    [⟨LevelKind.support, c.low, c.timestamp⟩]
  else [])

/-- Specialization of `llAtCandle` to the candle at index `i` itself. -/
def llAt (df : List Candle) (i : ℕ) : List LiquidityLevel :=
  llAtCandle df i (df.getD i dC)

/-- From `SMCPatternAnalyzer.identify_liquidity_levels`: the loop runs over
`range(window, len(df) - window)` with `window = 5`. -/
def identify_liquidity_levels (df : List Candle) : List LiquidityLevel :=
  (List.range' 5 (df.length - 10)).flatMap (llAt df)

/-- The order blocks contributed by index `i` of one iteration of the
loop in `SMCPatternAnalyzer.identify_order_blocks`: a bullish block when
candle `i` is bullish, candle `i+1` bearish, and the relative range of
candle `i+1` strictly exceeds `LIQUIDITY_THRESHOLD`; bearish mirrors the
candle directions with the same range test. -/
def obAt (cfg : TradingConfig) (df : List Candle) (i : ℕ) : List OrderBlock :=
  let c0 := df.getD i dC
  let c1 := df.getD (i + 1) dC
  (if c0.open_price < c0.close ∧ c1.close < c1.open_price ∧
      cfg.LIQUIDITY_THRESHOLD < (c1.high - c1.low) / c1.low then
    [⟨PatternKind.bullish, c0.high, c0.low, c0.timestamp⟩]
  else []) ++
  (if c0.close < c0.open_price ∧ c1.open_price < c1.close ∧
      cfg.LIQUIDITY_THRESHOLD < (c1.high - c1.low) / c1.low then
    [⟨PatternKind.bearish, c0.high, c0.low, c0.timestamp⟩]
  else [])

/-- From `SMCPatternAnalyzer.identify_order_blocks`: the loop runs over
`range(len(df) - 1)`. -/
def identify_order_blocks (cfg : TradingConfig) (df : List Candle) : List OrderBlock :=
  (List.range (df.length - 1)).flatMap (obAt cfg df)

/-- The gaps contributed by middle index `i` of one iteration of the
loop in `SMCPatternAnalyzer.identify_fair_value_gaps`. -/
def fvgAt (cfg : TradingConfig) (df : List Candle) (i : ℕ) : List FairValueGap :=
  let prev := df.getD (i - 1) dC
  let next := df.getD (i + 1) dC
  let mid := df.getD i dC
  (if prev.high < next.low ∧
      cfg.IMBALANCE_THRESHOLD < (next.low - prev.high) / prev.high then
    [⟨PatternKind.bullish, next.low, prev.high, mid.timestamp⟩]
  else []) ++
  (if next.high < prev.low ∧
      cfg.IMBALANCE_THRESHOLD < (prev.low - next.high) / next.high then
    [⟨PatternKind.bearish, prev.low, next.high, mid.timestamp⟩]
  else [])

/-- From `SMCPatternAnalyzer.identify_fair_value_gaps`: the loop runs over
`range(1, len(df) - 1)`. -/
def identify_fair_value_gaps (cfg : TradingConfig) (df : List Candle) : List FairValueGap :=
  (List.range' 1 (df.length - 2)).flatMap (fvgAt cfg df)

/-- The dict returned by `SMCPatternAnalyzer.analyze_patterns`. -/
structure PatternSnapshot where
  liquidity_levels : List LiquidityLevel
  order_blocks : List OrderBlock
  fair_value_gaps : List FairValueGap
  deriving DecidableEq, Repr

/-- From `SMCPatternAnalyzer.analyze_patterns`: the combined snapshot of the
three detectors. -/
def analyze_patterns (cfg : TradingConfig) (df : List Candle) : PatternSnapshot :=
  ⟨identify_liquidity_levels df, identify_order_blocks cfg df,
   identify_fair_value_gaps cfg df⟩

/-! ## Backtester, from `src/backtesting.py` -/

/-- The `'side'` string of a position: `'BUY'` or `'SELL'`. -/
inductive Side where
  | BUY
  | SELL
  deriving DecidableEq, Repr

/-- Reasons passed to `close_position` by `run_backtest`. -/
inductive CloseReason where
  | stopLoss
  | takeProfit
  | endOfBacktest
  deriving DecidableEq, Repr

/-- The per-timeframe pattern snapshots handed to `open_position` as
`pattern_info` (the values of `patterns_by_timeframe`, in iteration
order). -/
abbrev PatternInfo : Type := List PatternSnapshot

/-- The dict stored in `self.positions[symbol]` by
`Backtester.open_position`. -/
structure Position where
  side : Side
  entry_price : ℚ
  stop_loss : ℚ
  take_profit : ℚ
  position_size : ℚ
  cost : ℚ
  pattern : PatternInfo
  timestamp : ℚ
  deriving DecidableEq

/-- The dict appended to `self.trades_history` by
`Backtester.close_position`. -/
structure Trade where
  symbol : String
  side : Side
  entry_price : ℚ
  exit_price : ℚ
  position_size : ℚ
  pnl : ℚ
  pnl_percent : ℚ
  entry_time : ℚ
  exit_time : ℚ
  reason : CloseReason
  pattern : PatternInfo
  deriving DecidableEq

/-- The mutable state of a `Backtester` during a run: `self.balance`,
`self.positions` (a dict, modelled as an association list in insertion
order), and `self.trades_history`. -/
structure BacktestState where
  balance : ℚ
  positions : List (String × Position)
  trades_history : List Trade
  deriving DecidableEq

/-- Lookup `symbol in self.positions` / `self.positions[symbol]` on the
association list modelling the dict. -/
def posLookup (s : String) : List (String × Position) → Option Position
  | [] => none
  | (k, v) :: rest => if k = s then some v else posLookup s rest

/-- Assignment `self.positions[symbol] = p`: Python dict assignment keeps the
position of an existing key and appends a new key at the end. -/
def posInsert (s : String) (p : Position) : List (String × Position) → List (String × Position)
  | [] => [(s, p)]
  | (k, v) :: rest => if k = s then (s, p) :: rest else (k, v) :: posInsert s p rest

/-- Deletion `del self.positions[symbol]`. -/
def posErase (s : String) : List (String × Position) → List (String × Position)
  | [] => []
  | (k, v) :: rest => if k = s then rest else (k, v) :: posErase s rest

/-- From `Backtester.calculate_position_size`:
`self.balance * self.config.POSITION_SIZE`. -/
def calculate_position_size (cfg : TradingConfig) (st : BacktestState) : ℚ :=
  st.balance * cfg.POSITION_SIZE

/-- From `Backtester.open_position`: no-op when the position count has
reached `MAX_POSITIONS` or the cost exceeds the balance; otherwise
stores the new position and debits the cost. -/
def open_position (cfg : TradingConfig) (st : BacktestState) (symbol : String)
    (side : Side) (price : ℚ) (timestamp : ℚ) (pattern_info : PatternInfo) :
    BacktestState :=
  if cfg.MAX_POSITIONS ≤ st.positions.length then st
  else
    if st.balance < calculate_position_size cfg st then st
    else
      { st with
        positions := posInsert symbol
          { side := side
            entry_price := price
            stop_loss := if side = Side.BUY then price * (1 - cfg.STOP_LOSS_PERCENT)
                         else price * (1 + cfg.STOP_LOSS_PERCENT)
            take_profit := if side = Side.BUY then price * (1 + cfg.TAKE_PROFIT_PERCENT)
                           else price * (1 - cfg.TAKE_PROFIT_PERCENT)
            position_size := calculate_position_size cfg st / price
            cost := calculate_position_size cfg st
            pattern := pattern_info
            timestamp := timestamp } st.positions
        balance := st.balance - calculate_position_size cfg st }

/-- The PnL computed by `Backtester.close_position`:
`(exit - entry) * quantity` for a long, `(entry - exit) * quantity` for
a short. -/
def trade_pnl (position : Position) (exit_price : ℚ) : ℚ :=
  if position.side = Side.BUY then
    (exit_price - position.entry_price) * position.position_size
  else
    (position.entry_price - exit_price) * position.position_size

/-- The trade record built by `Backtester.close_position`. -/
def mkTrade (symbol : String) (position : Position) (exit_price timestamp : ℚ)
    (reason : CloseReason) : Trade where
  symbol := symbol
  side := position.side
  entry_price := position.entry_price
  exit_price := exit_price
  position_size := position.position_size
  pnl := trade_pnl position exit_price
  pnl_percent := trade_pnl position exit_price / position.cost * 100
  entry_time := position.timestamp
  exit_time := timestamp
  reason := reason
  pattern := position.pattern

/-- From `Backtester.close_position`: no-op when the symbol has no open
position; otherwise credits `cost + pnl`, appends one trade record and
removes the position. -/
def close_position (st : BacktestState) (symbol : String) (exit_price timestamp : ℚ)
    (reason : CloseReason) : BacktestState :=
  match posLookup symbol st.positions with
  | none => st
  | some position =>
    { balance := st.balance + position.cost + trade_pnl position exit_price
      positions := posErase symbol st.positions
      trades_history := st.trades_history ++ [mkTrade symbol position exit_price timestamp reason] }

/-- The vote contribution of one timeframe's snapshot in
`Backtester.run_backtest`: the last order block (if any) and the last
fair-value gap (if any) each add one buy or sell vote according to their
type. -/
def snapshotVotes (acc : ℕ × ℕ) (snap : PatternSnapshot) : ℕ × ℕ :=
  let acc1 :=
    match snap.order_blocks.getLast? with
    | some ob =>
      if ob.kind = PatternKind.bullish then (acc.1 + 1, acc.2)
      else (acc.1, acc.2 + 1)
    | none => acc
  match snap.fair_value_gaps.getLast? with
  | some fvg =>
    if fvg.kind = PatternKind.bullish then (acc1.1 + 1, acc1.2)
    else (acc1.1, acc1.2 + 1)
  | none => acc1

/-- The `buy_signals` / `sell_signals` accumulation loop of
`Backtester.run_backtest` over the per-timeframe snapshots. -/
def countVotes (snaps : List PatternSnapshot) : ℕ × ℕ :=
  snaps.foldl snapshotVotes (0, 0)

/-- One iteration of the inner bar loop of `Backtester.run_backtest`
(signal counting, exit management, and the open decision) for one
symbol, given the per-timeframe snapshots and the current bar's close
price and time.  The `balance_history` bookkeeping touches no state
modelled here. -/
def processBar (cfg : TradingConfig) (st : BacktestState) (symbol : String)
    (snaps : List PatternSnapshot) (current_price current_time : ℚ) :
    BacktestState :=
  match posLookup symbol st.positions with
  | some pos =>
    if pos.side = Side.BUY then
      if current_price ≤ pos.stop_loss then
        close_position st symbol current_price current_time CloseReason.stopLoss
      else if pos.take_profit ≤ current_price then
        close_position st symbol current_price current_time CloseReason.takeProfit
      else st
    else
      if pos.stop_loss ≤ current_price then
        close_position st symbol current_price current_time CloseReason.stopLoss
      else if current_price ≤ pos.take_profit then
        close_position st symbol current_price current_time CloseReason.takeProfit
      else st
  | none =>
    if st.positions.length < cfg.MAX_POSITIONS then
      if 2 ≤ (countVotes snaps).1 then
        open_position cfg st symbol Side.BUY current_price current_time snaps
      else if 2 ≤ (countVotes snaps).2 then
        open_position cfg st symbol Side.SELL current_price current_time snaps
      else st
    else st

/-- A bar input for `processBar`: symbol, per-timeframe snapshots,
close price, time. -/
structure BarInput where
  symbol : String
  snaps : List PatternSnapshot
  price : ℚ
  time : ℚ

/-- The bar/symbol loops of `Backtester.run_backtest`, as a fold of
`processBar` over the sequence of bar inputs the run produces. -/
def processBars (cfg : TradingConfig) (st : BacktestState) (bars : List BarInput) :
    BacktestState :=
  bars.foldl (fun s b => processBar cfg s b.symbol b.snaps b.price b.time) st

/-- The final force-close loop of `Backtester.run_backtest`: every
still-open position is closed at its symbol's final close price. -/
def closeAllAtEnd (st : BacktestState) (finalPrice finalTime : String → ℚ) :
    BacktestState :=
  (st.positions.map Prod.fst).foldl
    (fun s sym => close_position s sym (finalPrice sym) (finalTime sym)
      CloseReason.endOfBacktest) st

/-! ## Metrics, from `Backtester.calculate_metrics` -/

/-- The dict returned by `Backtester.calculate_metrics`.  The float
`inf` sentinel for `profit_factor` is modelled by `none`. -/
structure Metrics where
  total_trades : ℕ
  profitable_trades : ℕ
  win_rate : ℚ
  total_pnl : ℚ
  total_return : ℚ
  average_pnl : ℚ
  max_drawdown : ℚ
  final_balance : ℚ
  profit_factor : Option ℚ
  deriving DecidableEq

/-- The balance curve replayed by `calculate_metrics`: starting from the
initial balance, each trade's pnl is added in order and the running
balance recorded. -/
def balanceCurve (initial_balance : ℚ) : List ℚ → List ℚ
  | [] => []
  | pnl :: rest => (initial_balance + pnl) :: balanceCurve (initial_balance + pnl) rest

/-- One step of the max-drawdown loop of `calculate_metrics`: raise the
peak if exceeded, then fold in `(peak - balance) / peak`. -/
def drawdownStep (acc : ℚ × ℚ) (balance : ℚ) : ℚ × ℚ :=
  let peak := if acc.2 < balance then balance else acc.2
  (max acc.1 ((peak - balance) / peak), peak)

/-- The max-drawdown loop of `calculate_metrics` over the balance
curve, carrying `(max_drawdown, peak_balance)`. -/
def maxDrawdownOf (initial_balance : ℚ) (curve : List ℚ) : ℚ :=
  (curve.foldl drawdownStep (0, initial_balance)).1

/-- From `Backtester.calculate_metrics`, as a function of the initial
balance, the current cash balance (`self.balance`) and the trade
history. -/
def calculate_metrics (initial_balance balance : ℚ) (trades : List Trade) : Metrics :=
  if trades = [] then
    { total_trades := 0
      profitable_trades := 0
      win_rate := 0
      total_pnl := 0
      total_return := 0
      average_pnl := 0
      max_drawdown := 0
      final_balance := balance
      profit_factor := some 0 }
  else
    { total_trades := trades.length
      profitable_trades := (trades.filter fun t => decide (0 < t.pnl)).length
      win_rate := if 0 < trades.length then
          ((trades.filter fun t => decide (0 < t.pnl)).length : ℚ) / trades.length
        else 0
      total_pnl := (trades.map Trade.pnl).sum
      total_return := (trades.map Trade.pnl).sum / initial_balance * 100
      average_pnl := if trades.map Trade.pnl = [] then 0
        else (trades.map Trade.pnl).sum / (trades.map Trade.pnl).length
      max_drawdown :=
        maxDrawdownOf initial_balance (balanceCurve initial_balance (trades.map Trade.pnl)) * 100
      final_balance := balance
      profit_factor :=
        if 0 < ((trades.filter fun t => decide (t.pnl < 0)).map fun t => |t.pnl|).sum then
          some (((trades.filter fun t => decide (0 < t.pnl)).map Trade.pnl).sum /
            ((trades.filter fun t => decide (t.pnl < 0)).map fun t => |t.pnl|).sum)
        else none }

/-! ## Exception-tracking detector variants

Python's `/` raises `ZeroDivisionError` on a zero divisor, and `and`
short-circuits, so a division in a detector condition is only evaluated
once the preceding conjuncts hold.  The following variants return
`none` exactly when the Python code would raise; they are otherwise the
same functions as above. -/

/-- Variant of `obAt` with the `ZeroDivisionError` of `(high-low)/low` made
explicit: the divisor `low[i+1]` is only reached when the two
candle-direction conjuncts hold. -/
def obAtE (cfg : TradingConfig) (df : List Candle) (i : ℕ) : Option (List OrderBlock) := do
  let c0 := df.getD i dC
  let c1 := df.getD (i + 1) dC
  let bull ←
    if c0.open_price < c0.close ∧ c1.close < c1.open_price then
      if c1.low = 0 then none
      else pure (if cfg.LIQUIDITY_THRESHOLD < (c1.high - c1.low) / c1.low then
        [(⟨PatternKind.bullish, c0.high, c0.low, c0.timestamp⟩ : OrderBlock)] else [])
    else pure []
  let bear ←
    if c0.close < c0.open_price ∧ c1.open_price < c1.close then
      if c1.low = 0 then none
      else pure (if cfg.LIQUIDITY_THRESHOLD < (c1.high - c1.low) / c1.low then
        [(⟨PatternKind.bearish, c0.high, c0.low, c0.timestamp⟩ : OrderBlock)] else [])
    else pure []
  pure (bull ++ bear)

/-- Variant of `identify_order_blocks` with `ZeroDivisionError` made explicit. -/
def identify_order_blocksE (cfg : TradingConfig) (df : List Candle) :
    Option (List OrderBlock) :=
  (List.range (df.length - 1)).foldr
    (fun i acc => do pure ((← obAtE cfg df i) ++ (← acc))) (some [])

/-- Variant of `fvgAt` with the `ZeroDivisionError` of the gap-size divisions made
explicit: the divisor is only reached once the gap-direction comparison
holds. -/
def fvgAtE (cfg : TradingConfig) (df : List Candle) (i : ℕ) : Option (List FairValueGap) := do
  let prev := df.getD (i - 1) dC
  let next := df.getD (i + 1) dC
  let mid := df.getD i dC
  let bull ←
    if prev.high < next.low then
      if prev.high = 0 then none
      else pure (if cfg.IMBALANCE_THRESHOLD < (next.low - prev.high) / prev.high then
        [(⟨PatternKind.bullish, next.low, prev.high, mid.timestamp⟩ : FairValueGap)] else [])
    else pure []
  let bear ←
    if next.high < prev.low then
      if next.high = 0 then none
      else pure (if cfg.IMBALANCE_THRESHOLD < (prev.low - next.high) / next.high then
        [(⟨PatternKind.bearish, prev.low, next.high, mid.timestamp⟩ : FairValueGap)] else [])
    else pure []
  pure (bull ++ bear)

/-- Variant of `identify_fair_value_gaps` with `ZeroDivisionError` made explicit. -/
def identify_fair_value_gapsE (cfg : TradingConfig) (df : List Candle) :
    Option (List FairValueGap) :=
  (List.range' 1 (df.length - 2)).foldr
    (fun i acc => do pure ((← fvgAtE cfg df i) ++ (← acc))) (some [])

/-- Variant of `analyze_patterns` with `ZeroDivisionError` made explicit
(liquidity-level detection performs no division). -/
def analyze_patternsE (cfg : TradingConfig) (df : List Candle) : Option PatternSnapshot := do
  let obs ← identify_order_blocksE cfg df
  let fvgs ← identify_fair_value_gapsE cfg df
  pure ⟨identify_liquidity_levels df, obs, fvgs⟩

/-! ## Theorems -/

/-- C1 (counterexample): with an empty trade list but a nonzero cash
balance, `calculate_metrics` reports that balance — not zero — as
`final_balance`, refuting the claim that every field of the empty-input
result is zero. -/
theorem metrics_empty_final_balance_not_zero :
    (calculate_metrics 10000 10000 []).final_balance = 10000 ∧ (10000 : ℚ) ≠ 0 := by
  constructor
  · rfl
  · norm_num

/-- C1 (amended): for an empty trade list `calculate_metrics` is total
and returns a fully populated structure in which every field is zero
except `final_balance`, which equals the current cash balance, and
`profit_factor`, which is the finite value zero. -/
theorem calculate_metrics_empty (initial_balance balance : ℚ) :
    calculate_metrics initial_balance balance [] =
      ⟨0, 0, 0, 0, 0, 0, 0, balance, some 0⟩ := rfl

/-- C2: closing an existing open position credits exactly
`reserved_cost + pnl` to the cash balance, where the pnl is
`(exit - entry) * quantity` for a long and `(entry - exit) * quantity`
for a short, and appends exactly one trade record carrying that pnl. -/
theorem close_position_balance_and_trade (st : BacktestState) (symbol : String)
    (p : Position) (exit_price timestamp : ℚ) (reason : CloseReason)
    (h : posLookup symbol st.positions = some p) :
    (close_position st symbol exit_price timestamp reason).balance
        = st.balance + p.cost +
          (if p.side = Side.BUY then (exit_price - p.entry_price) * p.position_size
           else (p.entry_price - exit_price) * p.position_size) ∧
    (close_position st symbol exit_price timestamp reason).trades_history
        = st.trades_history ++ [mkTrade symbol p exit_price timestamp reason] ∧
    (mkTrade symbol p exit_price timestamp reason).pnl
        = (if p.side = Side.BUY then (exit_price - p.entry_price) * p.position_size
           else (p.entry_price - exit_price) * p.position_size) := by
  unfold close_position
  rw [h]
  exact ⟨rfl, rfl, rfl⟩

/-- The position used by the C2 witness. -/
def wPos : Position := ⟨Side.BUY, 100, 98, 104, 1, 100, [], 0⟩

/-- The state used by the C2 witness: one open long position. -/
def wSt : BacktestState := ⟨900, [("BTCUSDT", wPos)], []⟩

/-- C2 witness: the theorem applied to a concrete one-position state. -/
theorem close_position_balance_and_trade_witness :
    (close_position wSt "BTCUSDT" 105 1 CloseReason.takeProfit).balance
        = wSt.balance + wPos.cost +
          (if wPos.side = Side.BUY then (105 - wPos.entry_price) * wPos.position_size
           else (wPos.entry_price - 105) * wPos.position_size) ∧
    (close_position wSt "BTCUSDT" 105 1 CloseReason.takeProfit).trades_history
        = wSt.trades_history ++ [mkTrade "BTCUSDT" wPos 105 1 CloseReason.takeProfit] ∧
    (mkTrade "BTCUSDT" wPos 105 1 CloseReason.takeProfit).pnl
        = (if wPos.side = Side.BUY then (105 - wPos.entry_price) * wPos.position_size
           else (wPos.entry_price - 105) * wPos.position_size) :=
  close_position_balance_and_trade wSt "BTCUSDT" wPos 105 1 CloseReason.takeProfit
    (by simp [posLookup, wSt])

/-- C9 (amended): opening a position whose computed cost strictly
exceeds the cash balance is a silent no-op (the whole state is
unchanged), and every open operation preserves non-negativity of the
cash balance: a cash balance that is non-negative immediately before
the open is non-negative immediately after it. -/
theorem open_position_cost_guard (cfg : TradingConfig) (st : BacktestState)
    (symbol : String) (side : Side) (price timestamp : ℚ) (info : PatternInfo) :
    (st.balance < calculate_position_size cfg st →
      open_position cfg st symbol side price timestamp info = st) ∧
    (0 ≤ st.balance → 0 ≤ (open_position cfg st symbol side price timestamp info).balance) := by
  constructor
  · intro h
    unfold open_position
    by_cases h1 : cfg.MAX_POSITIONS ≤ st.positions.length
    · rw [if_pos h1]
    · rw [if_neg h1, if_pos h]
  · intro h
    unfold open_position
    by_cases h1 : cfg.MAX_POSITIONS ≤ st.positions.length
    · rw [if_pos h1]; exact h
    · rw [if_neg h1]
      by_cases h2 : st.balance < calculate_position_size cfg st
      · rw [if_pos h2]; exact h
      · rw [if_neg h2]
        push_neg at h2
        simp only
        linarith

/-- C9 witness: the no-op case at a negative balance and the
non-negativity case at the default initial balance. -/
theorem open_position_cost_guard_witness :
    (open_position defaultConfig ⟨-1, [], []⟩ "BTCUSDT" Side.BUY 100 0 [] = ⟨-1, [], []⟩) ∧
    (0 ≤ (open_position defaultConfig ⟨10000, [], []⟩ "BTCUSDT" Side.BUY 100 0 []).balance) :=
  ⟨(open_position_cost_guard defaultConfig ⟨-1, [], []⟩ "BTCUSDT" Side.BUY 100 0 []).1
      (by norm_num [calculate_position_size, defaultConfig]),
   (open_position_cost_guard defaultConfig ⟨10000, [], []⟩ "BTCUSDT" Side.BUY 100 0 []).2
      (by norm_num)⟩

/-! ### Association-list lemmas for the positions dict -/

theorem posLookup_posInsert_self (s : String) (p : Position) (l : List (String × Position)) :
    posLookup s (posInsert s p l) = some p := by
  induction l with
  | nil => simp [posInsert, posLookup]
  | cons kv rest ih =>
    obtain ⟨k, v⟩ := kv
    by_cases h : k = s
    · simp [posInsert, posLookup, h]
    · simp [posInsert, posLookup, h, ih]

theorem posLookup_posInsert_ne (s s' : String) (p : Position) (l : List (String × Position))
    (hne : s' ≠ s) : posLookup s' (posInsert s p l) = posLookup s' l := by
  induction l with
  | nil => simp [posInsert, posLookup, Ne.symm hne]
  | cons kv rest ih =>
    obtain ⟨k, v⟩ := kv
    by_cases h : k = s
    · subst h
      simp [posInsert, posLookup, Ne.symm hne]
    · simp only [posInsert, if_neg h, posLookup]
      rw [ih]

theorem posLookup_posErase_ne (s s' : String) (l : List (String × Position))
    (hne : s' ≠ s) : posLookup s' (posErase s l) = posLookup s' l := by
  induction l with
  | nil => simp [posErase]
  | cons kv rest ih =>
    obtain ⟨k, v⟩ := kv
    by_cases h : k = s
    · subst h
      simp [posErase, posLookup, Ne.symm hne]
    · simp only [posErase, if_neg h, posLookup]
      rw [ih]

theorem length_posInsert_le (s : String) (p : Position) (l : List (String × Position)) :
    (posInsert s p l).length ≤ l.length + 1 := by
  induction l with
  | nil => simp [posInsert]
  | cons kv rest ih =>
    obtain ⟨k, v⟩ := kv
    by_cases h : k = s <;> simp [posInsert, h] <;> omega

theorem length_posErase_le (s : String) (l : List (String × Position)) :
    (posErase s l).length ≤ l.length := by
  induction l with
  | nil => simp [posErase]
  | cons kv rest ih =>
    obtain ⟨k, v⟩ := kv
    by_cases h : k = s <;> simp [posErase, h] <;> omega

theorem keys_posInsert_subset (s x : String) (p : Position) (l : List (String × Position))
    (hx : x ∈ (posInsert s p l).map Prod.fst) : x = s ∨ x ∈ l.map Prod.fst := by
  induction l with
  | nil => simpa [posInsert] using hx
  | cons kv rest ih =>
    obtain ⟨k, v⟩ := kv
    by_cases h : k = s
    · subst h
      simpa [posInsert] using hx
    · simp only [posInsert, if_neg h, List.map_cons, List.mem_cons] at hx
      rcases hx with hx | hx
      · right; simp [hx]
      · rcases ih hx with hx' | hx'
        · left; exact hx'
        · right; simp [hx']

theorem nodup_keys_posInsert (s : String) (p : Position) (l : List (String × Position))
    (h : (l.map Prod.fst).Nodup) : ((posInsert s p l).map Prod.fst).Nodup := by
  induction l with
  | nil => simp [posInsert]
  | cons kv rest ih =>
    obtain ⟨k, v⟩ := kv
    simp only [List.map_cons, List.nodup_cons] at h
    by_cases hk : k = s
    · subst hk
      simpa [posInsert] using h
    · simp only [posInsert, if_neg hk, List.map_cons, List.nodup_cons]
      refine ⟨fun hmem => ?_, ih h.2⟩
      rcases keys_posInsert_subset s k p rest hmem with h' | h'
      · exact hk h'
      · exact h.1 h'

theorem keys_posErase_sublist (s : String) (l : List (String × Position)) :
    ((posErase s l).map Prod.fst).Sublist (l.map Prod.fst) := by
  induction l with
  | nil => simp [posErase]
  | cons kv rest ih =>
    obtain ⟨k, v⟩ := kv
    by_cases h : k = s
    · simp only [posErase, if_pos h, List.map_cons]
      exact (List.sublist_cons_self _ _)
    · simp only [posErase, if_neg h, List.map_cons]
      exact ih.cons₂ k

theorem nodup_keys_posErase (s : String) (l : List (String × Position))
    (h : (l.map Prod.fst).Nodup) : ((posErase s l).map Prod.fst).Nodup :=
  (keys_posErase_sublist s l).nodup h

/-! ### Preservation lemmas for the position-table invariant -/

theorem open_position_inv (cfg : TradingConfig) (st : BacktestState) (symbol : String)
    (side : Side) (price t : ℚ) (info : PatternInfo)
    (hlen : st.positions.length ≤ cfg.MAX_POSITIONS)
    (hnd : (st.positions.map Prod.fst).Nodup) :
    (open_position cfg st symbol side price t info).positions.length ≤ cfg.MAX_POSITIONS ∧
    ((open_position cfg st symbol side price t info).positions.map Prod.fst).Nodup := by
  unfold open_position
  by_cases h1 : cfg.MAX_POSITIONS ≤ st.positions.length
  · rw [if_pos h1]; exact ⟨hlen, hnd⟩
  · rw [if_neg h1]
    by_cases h2 : st.balance < calculate_position_size cfg st
    · rw [if_pos h2]; exact ⟨hlen, hnd⟩
    · rw [if_neg h2]
      refine ⟨le_trans (length_posInsert_le _ _ _) ?_, nodup_keys_posInsert _ _ _ hnd⟩
      omega

theorem close_position_inv (st : BacktestState) (symbol : String) (xp t : ℚ)
    (r : CloseReason) {maxPos : ℕ}
    (hlen : st.positions.length ≤ maxPos)
    (hnd : (st.positions.map Prod.fst).Nodup) :
    (close_position st symbol xp t r).positions.length ≤ maxPos ∧
    ((close_position st symbol xp t r).positions.map Prod.fst).Nodup := by
  cases h : posLookup symbol st.positions with
  | none => unfold close_position; rw [h]; exact ⟨hlen, hnd⟩
  | some p =>
    unfold close_position; rw [h]
    exact ⟨le_trans (length_posErase_le _ _) hlen, nodup_keys_posErase _ _ hnd⟩

theorem processBar_inv (cfg : TradingConfig) (st : BacktestState) (symbol : String)
    (snaps : List PatternSnapshot) (price t : ℚ)
    (hlen : st.positions.length ≤ cfg.MAX_POSITIONS)
    (hnd : (st.positions.map Prod.fst).Nodup) :
    (processBar cfg st symbol snaps price t).positions.length ≤ cfg.MAX_POSITIONS ∧
    ((processBar cfg st symbol snaps price t).positions.map Prod.fst).Nodup := by
  unfold processBar
  cases h : posLookup symbol st.positions with
  | some pos =>
    dsimp only
    split_ifs <;>
      first
        | exact close_position_inv _ _ _ _ _ hlen hnd
        | exact ⟨hlen, hnd⟩
  | none =>
    dsimp only
    split_ifs <;>
      first
        | exact open_position_inv _ _ _ _ _ _ _ hlen hnd
        | exact ⟨hlen, hnd⟩

theorem processBars_inv (cfg : TradingConfig) (bars : List BarInput) :
    ∀ st : BacktestState, st.positions.length ≤ cfg.MAX_POSITIONS →
      (st.positions.map Prod.fst).Nodup →
      (processBars cfg st bars).positions.length ≤ cfg.MAX_POSITIONS ∧
      ((processBars cfg st bars).positions.map Prod.fst).Nodup := by
  induction bars with
  | nil => intro st hlen hnd; exact ⟨hlen, hnd⟩
  | cons b rest ih =>
    intro st hlen hnd
    have hb := processBar_inv cfg st b.symbol b.snaps b.price b.time hlen hnd
    exact ih _ hb.1 hb.2

theorem close_fold_inv (fp ft : String → ℚ) (syms : List String) :
    ∀ st : BacktestState, ∀ maxPos : ℕ, st.positions.length ≤ maxPos →
      (st.positions.map Prod.fst).Nodup →
      (syms.foldl (fun s sym => close_position s sym (fp sym) (ft sym)
        CloseReason.endOfBacktest) st).positions.length ≤ maxPos ∧
      ((syms.foldl (fun s sym => close_position s sym (fp sym) (ft sym)
        CloseReason.endOfBacktest) st).positions.map Prod.fst).Nodup := by
  induction syms with
  | nil => intro st maxPos hlen hnd; exact ⟨hlen, hnd⟩
  | cons sym rest ih =>
    intro st maxPos hlen hnd
    have hc := close_position_inv st sym (fp sym) (ft sym) CloseReason.endOfBacktest hlen hnd
    exact ih _ _ hc.1 hc.2

/-! ### Frame lemmas: operations on one symbol leave other symbols' positions alone -/

theorem close_position_posLookup_ne (st : BacktestState) (symbol s' : String)
    (xp t : ℚ) (r : CloseReason) (hne : s' ≠ symbol) :
    posLookup s' (close_position st symbol xp t r).positions = posLookup s' st.positions := by
  cases h : posLookup symbol st.positions with
  | none => unfold close_position; rw [h]
  | some p => unfold close_position; rw [h]; exact posLookup_posErase_ne _ _ _ hne

theorem open_position_posLookup_ne (cfg : TradingConfig) (st : BacktestState)
    (symbol s' : String) (side : Side) (price t : ℚ) (info : PatternInfo)
    (hne : s' ≠ symbol) :
    posLookup s' (open_position cfg st symbol side price t info).positions
      = posLookup s' st.positions := by
  unfold open_position
  split_ifs <;> first | rfl | exact posLookup_posInsert_ne _ _ _ _ hne

theorem processBar_posLookup_ne (cfg : TradingConfig) (st : BacktestState)
    (symbol s' : String) (snaps : List PatternSnapshot) (price t : ℚ)
    (hne : s' ≠ symbol) :
    posLookup s' (processBar cfg st symbol snaps price t).positions
      = posLookup s' st.positions := by
  unfold processBar
  cases h : posLookup symbol st.positions with
  | some pos =>
    dsimp only
    split_ifs <;> first | rfl | exact close_position_posLookup_ne _ _ _ _ _ _ hne
  | none =>
    dsimp only
    split_ifs <;> first | rfl | exact open_position_posLookup_ne _ _ _ _ _ _ _ _ hne

/-- C4: stop-loss and take-profit levels are fixed at open time as
`entry * (1 ∓ STOP_LOSS_PERCENT)` and `entry * (1 ± TAKE_PROFIT_PERCENT)`
(sign by side); on each bar a long closes at `price ≤ stop_loss` with
reason stop-loss, else at `price ≥ take_profit` with reason take-profit,
a short mirrors the directions, the stop-loss branch is checked first,
and a bar processed for a different symbol never changes this symbol's
open position. -/
theorem stop_take_levels_and_exits (cfg : TradingConfig) (st : BacktestState)
    (symbol : String) :
    (∀ (side : Side) (price timestamp : ℚ) (info : PatternInfo),
      st.positions.length < cfg.MAX_POSITIONS →
      calculate_position_size cfg st ≤ st.balance →
      posLookup symbol (open_position cfg st symbol side price timestamp info).positions
        = some
          { side := side
            entry_price := price
            stop_loss := if side = Side.BUY then price * (1 - cfg.STOP_LOSS_PERCENT)
                         else price * (1 + cfg.STOP_LOSS_PERCENT)
            take_profit := if side = Side.BUY then price * (1 + cfg.TAKE_PROFIT_PERCENT)
                           else price * (1 - cfg.TAKE_PROFIT_PERCENT)
            position_size := calculate_position_size cfg st / price
            cost := calculate_position_size cfg st
            pattern := info
            timestamp := timestamp }) ∧
    (∀ (p : Position) (snaps : List PatternSnapshot) (price t : ℚ),
      posLookup symbol st.positions = some p → p.side = Side.BUY →
      (price ≤ p.stop_loss →
        processBar cfg st symbol snaps price t
          = close_position st symbol price t CloseReason.stopLoss) ∧
      (¬ price ≤ p.stop_loss → p.take_profit ≤ price →
        processBar cfg st symbol snaps price t
          = close_position st symbol price t CloseReason.takeProfit) ∧
      (¬ price ≤ p.stop_loss → ¬ p.take_profit ≤ price →
        processBar cfg st symbol snaps price t = st)) ∧
    (∀ (p : Position) (snaps : List PatternSnapshot) (price t : ℚ),
      posLookup symbol st.positions = some p → p.side = Side.SELL →
      (p.stop_loss ≤ price →
        processBar cfg st symbol snaps price t
          = close_position st symbol price t CloseReason.stopLoss) ∧
      (¬ p.stop_loss ≤ price → price ≤ p.take_profit →
        processBar cfg st symbol snaps price t
          = close_position st symbol price t CloseReason.takeProfit) ∧
      (¬ p.stop_loss ≤ price → ¬ price ≤ p.take_profit →
        processBar cfg st symbol snaps price t = st)) ∧
    (∀ (s' : String) (snaps : List PatternSnapshot) (price t : ℚ),
      s' ≠ symbol →
      posLookup s' (processBar cfg st symbol snaps price t).positions
        = posLookup s' st.positions) := by
  refine ⟨?_, ?_, ?_, ?_⟩
  · intro side price timestamp info hlt hcost
    unfold open_position
    rw [if_neg (not_le.mpr hlt), if_neg (not_lt.mpr hcost)]
    exact posLookup_posInsert_self _ _ _
  · intro p snaps price t h hside
    refine ⟨?_, ?_, ?_⟩ <;> intro h1
    · unfold processBar
      rw [h]
      dsimp only
      rw [if_pos hside, if_pos h1]
    · intro h2
      unfold processBar
      rw [h]
      dsimp only
      rw [if_pos hside, if_neg h1, if_pos h2]
    · intro h2
      unfold processBar
      rw [h]
      dsimp only
      rw [if_pos hside, if_neg h1, if_neg h2]
  · intro p snaps price t h hside
    have hnb : ¬ p.side = Side.BUY := by rw [hside]; simp
    refine ⟨?_, ?_, ?_⟩ <;> intro h1
    · unfold processBar
      rw [h]
      dsimp only
      rw [if_neg hnb, if_pos h1]
    · intro h2
      unfold processBar
      rw [h]
      dsimp only
      rw [if_neg hnb, if_neg h1, if_pos h2]
    · intro h2
      unfold processBar
      rw [h]
      dsimp only
      rw [if_neg hnb, if_neg h1, if_neg h2]
  · intro s' snaps price t hne
    exact processBar_posLookup_ne cfg st symbol s' snaps price t hne

/-- C4 witness: levels at a concrete open, a concrete stop-loss exit,
and frame preservation for another symbol. -/
theorem stop_take_levels_and_exits_witness :
    (posLookup "BTCUSDT"
      (open_position defaultConfig ⟨10000, [], []⟩ "BTCUSDT" Side.BUY 100 0 []).positions
        = some
          { side := Side.BUY
            entry_price := 100
            stop_loss := if Side.BUY = Side.BUY then
                100 * (1 - defaultConfig.STOP_LOSS_PERCENT)
              else 100 * (1 + defaultConfig.STOP_LOSS_PERCENT)
            take_profit := if Side.BUY = Side.BUY then
                100 * (1 + defaultConfig.TAKE_PROFIT_PERCENT)
              else 100 * (1 - defaultConfig.TAKE_PROFIT_PERCENT)
            position_size := calculate_position_size defaultConfig ⟨10000, [], []⟩ / 100
            cost := calculate_position_size defaultConfig ⟨10000, [], []⟩
            pattern := []
            timestamp := 0 }) ∧
    (processBar defaultConfig wSt "BTCUSDT" [] 97 1
      = close_position wSt "BTCUSDT" 97 1 CloseReason.stopLoss) ∧
    (posLookup "ETHUSDT" (processBar defaultConfig wSt "BTCUSDT" [] 97 1).positions
      = posLookup "ETHUSDT" wSt.positions) :=
  ⟨(stop_take_levels_and_exits defaultConfig ⟨10000, [], []⟩ "BTCUSDT").1
      Side.BUY 100 0 [] (by simp [defaultConfig])
      (by norm_num [calculate_position_size, defaultConfig]),
   ((stop_take_levels_and_exits defaultConfig wSt "BTCUSDT").2.1
      wPos [] 97 1 (by simp [posLookup, wSt]) rfl).1 (by norm_num [wPos]),
   (stop_take_levels_and_exits defaultConfig wSt "BTCUSDT").2.2.2
      "ETHUSDT" [] 97 1 (by simp)⟩

/-- C5: the position-table invariant — at most `MAX_POSITIONS` open
positions across all symbols and at most one open position per symbol
(no duplicate keys) — is preserved by every open, every close, every
processed bar sequence, and the end-of-run force-close loop. -/
theorem positions_bounded_and_unique (cfg : TradingConfig) :
    (∀ (st : BacktestState) (symbol : String) (side : Side) (price t : ℚ)
        (info : PatternInfo),
      st.positions.length ≤ cfg.MAX_POSITIONS → (st.positions.map Prod.fst).Nodup →
      (open_position cfg st symbol side price t info).positions.length
          ≤ cfg.MAX_POSITIONS ∧
      ((open_position cfg st symbol side price t info).positions.map Prod.fst).Nodup) ∧
    (∀ (st : BacktestState) (symbol : String) (xp t : ℚ) (r : CloseReason),
      st.positions.length ≤ cfg.MAX_POSITIONS → (st.positions.map Prod.fst).Nodup →
      (close_position st symbol xp t r).positions.length ≤ cfg.MAX_POSITIONS ∧
      ((close_position st symbol xp t r).positions.map Prod.fst).Nodup) ∧
    (∀ (st : BacktestState) (bars : List BarInput),
      st.positions.length ≤ cfg.MAX_POSITIONS → (st.positions.map Prod.fst).Nodup →
      (processBars cfg st bars).positions.length ≤ cfg.MAX_POSITIONS ∧
      ((processBars cfg st bars).positions.map Prod.fst).Nodup) ∧
    (∀ (st : BacktestState) (fp ft : String → ℚ),
      st.positions.length ≤ cfg.MAX_POSITIONS → (st.positions.map Prod.fst).Nodup →
      (closeAllAtEnd st fp ft).positions.length ≤ cfg.MAX_POSITIONS ∧
      ((closeAllAtEnd st fp ft).positions.map Prod.fst).Nodup) := by
  refine ⟨?_, ?_, ?_, ?_⟩
  · intro st symbol side price t info hlen hnd
    exact open_position_inv cfg st symbol side price t info hlen hnd
  · intro st symbol xp t r hlen hnd
    exact close_position_inv st symbol xp t r hlen hnd
  · intro st bars hlen hnd
    exact processBars_inv cfg bars st hlen hnd
  · intro st fp ft hlen hnd
    exact close_fold_inv fp ft (st.positions.map Prod.fst) st cfg.MAX_POSITIONS hlen hnd

/-- C5 witness: the invariant holds after a concrete open, close, bar
sequence, and end-of-run close on a one-position state. -/
theorem positions_bounded_and_unique_witness :
    ((open_position defaultConfig wSt "ETHUSDT" Side.SELL 50 2 []).positions.length
        ≤ defaultConfig.MAX_POSITIONS ∧
      ((open_position defaultConfig wSt "ETHUSDT" Side.SELL 50 2 []).positions.map
        Prod.fst).Nodup) ∧
    ((close_position wSt "BTCUSDT" 105 1 CloseReason.takeProfit).positions.length
        ≤ defaultConfig.MAX_POSITIONS ∧
      ((close_position wSt "BTCUSDT" 105 1 CloseReason.takeProfit).positions.map
        Prod.fst).Nodup) ∧
    ((processBars defaultConfig wSt [⟨"BTCUSDT", [], 97, 1⟩]).positions.length
        ≤ defaultConfig.MAX_POSITIONS ∧
      ((processBars defaultConfig wSt [⟨"BTCUSDT", [], 97, 1⟩]).positions.map
        Prod.fst).Nodup) ∧
    ((closeAllAtEnd wSt (fun _ => 105) (fun _ => 9)).positions.length
        ≤ defaultConfig.MAX_POSITIONS ∧
      ((closeAllAtEnd wSt (fun _ => 105) (fun _ => 9)).positions.map Prod.fst).Nodup) :=
  ⟨(positions_bounded_and_unique defaultConfig).1 wSt "ETHUSDT" Side.SELL 50 2 []
      (by simp [wSt, defaultConfig]) (by simp [wSt]),
   (positions_bounded_and_unique defaultConfig).2.1 wSt "BTCUSDT" 105 1
      CloseReason.takeProfit (by simp [wSt, defaultConfig]) (by simp [wSt]),
   (positions_bounded_and_unique defaultConfig).2.2.1 wSt [⟨"BTCUSDT", [], 97, 1⟩]
      (by simp [wSt, defaultConfig]) (by simp [wSt]),
   (positions_bounded_and_unique defaultConfig).2.2.2 wSt (fun _ => 105) (fun _ => 9)
      (by simp [wSt, defaultConfig]) (by simp [wSt])⟩

/-! ### Vote-counting lemmas -/

theorem snapshotVotes_shift (acc : ℕ × ℕ) (s : PatternSnapshot) :
    snapshotVotes acc s
      = (acc.1 + (snapshotVotes (0, 0) s).1, acc.2 + (snapshotVotes (0, 0) s).2) := by
  unfold snapshotVotes
  rcases s.order_blocks.getLast? with _ | ob <;>
    rcases s.fair_value_gaps.getLast? with _ | fvg <;>
    dsimp only <;>
    (try split_ifs) <;>
    simp [Prod.ext_iff]

theorem foldl_snapshotVotes_shift (snaps : List PatternSnapshot) :
    ∀ acc : ℕ × ℕ, snaps.foldl snapshotVotes acc
      = (acc.1 + (countVotes snaps).1, acc.2 + (countVotes snaps).2) := by
  induction snaps with
  | nil => intro acc; simp [countVotes]
  | cons s rest ih =>
    intro acc
    show rest.foldl snapshotVotes (snapshotVotes acc s) = _
    have h2 : countVotes (s :: rest) = rest.foldl snapshotVotes (snapshotVotes (0, 0) s) := rfl
    rw [ih (snapshotVotes acc s), h2, ih (snapshotVotes (0, 0) s),
      snapshotVotes_shift acc s]
    simp [Prod.ext_iff]
    omega

theorem snapshotVotes_zero (s : PatternSnapshot) :
    snapshotVotes (0, 0) s
      = ((if s.order_blocks.getLast?.map OrderBlock.kind = some PatternKind.bullish
            then 1 else 0)
         + (if s.fair_value_gaps.getLast?.map FairValueGap.kind = some PatternKind.bullish
            then 1 else 0),
         (if s.order_blocks.getLast?.map OrderBlock.kind = some PatternKind.bearish
            then 1 else 0)
         + (if s.fair_value_gaps.getLast?.map FairValueGap.kind = some PatternKind.bearish
            then 1 else 0)) := by
  unfold snapshotVotes
  rcases s.order_blocks.getLast? with _ | ob <;>
    rcases s.fair_value_gaps.getLast? with _ | fvg <;>
    dsimp only [Option.map_none', Option.map_some']
  · rfl
  · cases fvg.kind <;> decide
  · cases ob.kind <;> decide
  · cases ob.kind <;> cases fvg.kind <;> decide

/-- A snapshot whose last order block and last fair-value gap are both
bullish: two buy votes. -/
def cexSnap : PatternSnapshot :=
  ⟨[], [⟨PatternKind.bullish, 2, 1, 0⟩], [⟨PatternKind.bullish, 2, 1, 0⟩]⟩

/-- A reachable-shape state with a negative cash balance and no open
positions. -/
def cexSt : BacktestState := ⟨-1, [], []⟩

/-- C3 (counterexample): at a bar where the symbol has no open
position, the open-position count is below `MAX_POSITIONS` and the buy
votes equal 2, no long position is opened — the bar is a no-op —
because the computed cost (`balance * POSITION_SIZE`) exceeds the
negative cash balance.  The claim omits this cost guard. -/
theorem open_decision_not_unconditional :
    posLookup "BTCUSDT" cexSt.positions = none ∧
    cexSt.positions.length < defaultConfig.MAX_POSITIONS ∧
    (countVotes [cexSnap]).1 = 2 ∧
    processBar defaultConfig cexSt "BTCUSDT" [cexSnap] 100 0 = cexSt := by
  refine ⟨rfl, by decide, by decide, ?_⟩
  show open_position defaultConfig cexSt "BTCUSDT" Side.BUY 100 0 [cexSnap] = cexSt
  unfold open_position
  rw [if_neg (by decide), if_pos (by norm_num [calculate_position_size, cexSt, defaultConfig])]

/-- C3 (amended): per timeframe only the last-emitted order block and
the last-emitted fair-value gap each contribute one vote (bullish → buy,
bearish → sell); at a bar where the symbol has no open position, the
open count is below `MAX_POSITIONS`, and additionally the computed cost
`balance * POSITION_SIZE` does not exceed the cash balance, buy votes
≥ 2 open a long and otherwise sell votes ≥ 2 open a short, with
quantity `(balance * POSITION_SIZE) / entry_price` and reserved cost
`balance * POSITION_SIZE` debited from cash. -/
theorem votes_and_open_decision (cfg : TradingConfig) (st : BacktestState)
    (symbol : String) (snaps : List PatternSnapshot) (price t : ℚ) :
    (countVotes snaps
      = ((snaps.map fun s =>
            (if s.order_blocks.getLast?.map OrderBlock.kind = some PatternKind.bullish
              then 1 else 0)
            + (if s.fair_value_gaps.getLast?.map FairValueGap.kind
                  = some PatternKind.bullish then 1 else 0)).sum,
         (snaps.map fun s =>
            (if s.order_blocks.getLast?.map OrderBlock.kind = some PatternKind.bearish
              then 1 else 0)
            + (if s.fair_value_gaps.getLast?.map FairValueGap.kind
                  = some PatternKind.bearish then 1 else 0)).sum)) ∧
    (posLookup symbol st.positions = none →
      st.positions.length < cfg.MAX_POSITIONS →
      st.balance * cfg.POSITION_SIZE ≤ st.balance →
      (2 ≤ (countVotes snaps).1 →
        processBar cfg st symbol snaps price t
            = open_position cfg st symbol Side.BUY price t snaps ∧
        posLookup symbol (processBar cfg st symbol snaps price t).positions
            = some
              { side := Side.BUY
                entry_price := price
                stop_loss := price * (1 - cfg.STOP_LOSS_PERCENT)
                take_profit := price * (1 + cfg.TAKE_PROFIT_PERCENT)
                position_size := st.balance * cfg.POSITION_SIZE / price
                cost := st.balance * cfg.POSITION_SIZE
                pattern := snaps
                timestamp := t } ∧
        (processBar cfg st symbol snaps price t).balance
            = st.balance - st.balance * cfg.POSITION_SIZE) ∧
      ((countVotes snaps).1 < 2 → 2 ≤ (countVotes snaps).2 →
        processBar cfg st symbol snaps price t
            = open_position cfg st symbol Side.SELL price t snaps ∧
        posLookup symbol (processBar cfg st symbol snaps price t).positions
            = some
              { side := Side.SELL
                entry_price := price
                stop_loss := price * (1 + cfg.STOP_LOSS_PERCENT)
                take_profit := price * (1 - cfg.TAKE_PROFIT_PERCENT)
                position_size := st.balance * cfg.POSITION_SIZE / price
                cost := st.balance * cfg.POSITION_SIZE
                pattern := snaps
                timestamp := t } ∧
        (processBar cfg st symbol snaps price t).balance
            = st.balance - st.balance * cfg.POSITION_SIZE)) := by
  constructor
  · induction snaps with
    | nil => rfl
    | cons s rest ih =>
      have h2 : countVotes (s :: rest)
          = rest.foldl snapshotVotes (snapshotVotes (0, 0) s) := rfl
      rw [h2, foldl_snapshotVotes_shift rest (snapshotVotes (0, 0) s), ih,
        snapshotVotes_zero s]
      simp [Prod.ext_iff]
  · intro hnone hlt hcost
    have hopen : ∀ side : Side,
        posLookup symbol
            (open_position cfg st symbol side price t snaps).positions
          = some
            { side := side
              entry_price := price
              stop_loss := if side = Side.BUY then price * (1 - cfg.STOP_LOSS_PERCENT)
                           else price * (1 + cfg.STOP_LOSS_PERCENT)
              take_profit := if side = Side.BUY then price * (1 + cfg.TAKE_PROFIT_PERCENT)
                             else price * (1 - cfg.TAKE_PROFIT_PERCENT)
              position_size := st.balance * cfg.POSITION_SIZE / price
              cost := st.balance * cfg.POSITION_SIZE
              pattern := snaps
              timestamp := t } := by
      intro side
      have hcost2 : ¬ st.balance < calculate_position_size cfg st := not_lt.mpr hcost
      unfold open_position
      rw [if_neg (not_le.mpr hlt), if_neg hcost2]
      exact posLookup_posInsert_self _ _ _
    have hbal : ∀ side : Side,
        (open_position cfg st symbol side price t snaps).balance
          = st.balance - st.balance * cfg.POSITION_SIZE := by
      intro side
      have hcost2 : ¬ st.balance < calculate_position_size cfg st := not_lt.mpr hcost
      unfold open_position
      rw [if_neg (not_le.mpr hlt), if_neg hcost2]
      rfl
    constructor
    · intro hbuy
      have hstep : processBar cfg st symbol snaps price t
          = open_position cfg st symbol Side.BUY price t snaps := by
        unfold processBar
        rw [hnone]
        dsimp only
        rw [if_pos hlt, if_pos hbuy]
      refine ⟨hstep, ?_, ?_⟩
      · rw [hstep]; exact hopen Side.BUY
      · rw [hstep]; exact hbal Side.BUY
    · intro hnob hsell
      have hstep : processBar cfg st symbol snaps price t
          = open_position cfg st symbol Side.SELL price t snaps := by
        unfold processBar
        rw [hnone]
        dsimp only
        rw [if_pos hlt, if_neg (not_le.mpr hnob), if_pos hsell]
      refine ⟨hstep, ?_, ?_⟩
      · rw [hstep]; exact hopen Side.SELL
      · rw [hstep]; exact hbal Side.SELL

/-- C3 (amended) witness: a bar with two buy votes at a positive
balance opens the long with the computed quantity. -/
theorem votes_and_open_decision_witness :
    (countVotes [cexSnap]
      = (([cexSnap].map fun s =>
            (if s.order_blocks.getLast?.map OrderBlock.kind = some PatternKind.bullish
              then 1 else 0)
            + (if s.fair_value_gaps.getLast?.map FairValueGap.kind
                  = some PatternKind.bullish then 1 else 0)).sum,
         ([cexSnap].map fun s =>
            (if s.order_blocks.getLast?.map OrderBlock.kind = some PatternKind.bearish
              then 1 else 0)
            + (if s.fair_value_gaps.getLast?.map FairValueGap.kind
                  = some PatternKind.bearish then 1 else 0)).sum)) ∧
    (processBar defaultConfig ⟨10000, [], []⟩ "BTCUSDT" [cexSnap] 100 0
        = open_position defaultConfig ⟨10000, [], []⟩ "BTCUSDT" Side.BUY 100 0 [cexSnap] ∧
      posLookup "BTCUSDT"
          (processBar defaultConfig ⟨10000, [], []⟩ "BTCUSDT" [cexSnap] 100 0).positions
        = some
          { side := Side.BUY
            entry_price := 100
            stop_loss := 100 * (1 - defaultConfig.STOP_LOSS_PERCENT)
            take_profit := 100 * (1 + defaultConfig.TAKE_PROFIT_PERCENT)
            position_size := (10000 : ℚ) * defaultConfig.POSITION_SIZE / 100
            cost := (10000 : ℚ) * defaultConfig.POSITION_SIZE
            pattern := [cexSnap]
            timestamp := 0 } ∧
      (processBar defaultConfig ⟨10000, [], []⟩ "BTCUSDT" [cexSnap] 100 0).balance
        = 10000 - (10000 : ℚ) * defaultConfig.POSITION_SIZE) :=
  ⟨(votes_and_open_decision defaultConfig ⟨10000, [], []⟩ "BTCUSDT" [cexSnap] 100 0).1,
   (votes_and_open_decision defaultConfig ⟨10000, [], []⟩ "BTCUSDT" [cexSnap] 100 0).2
      rfl (by decide) (by norm_num [defaultConfig]) |>.1 (by decide)⟩

/-! ### Detector characterizations -/

theorem mem_ite_singleton {α : Type} {c : Prop} [Decidable c] {x a : α} :
    a ∈ (if c then [x] else []) ↔ c ∧ a = x := by
  split_ifs with h <;> simp [h]

theorem mem_identify_order_blocks (cfg : TradingConfig) (df : List Candle)
    (b : OrderBlock) :
    b ∈ identify_order_blocks cfg df
      ↔ ∃ i, i + 1 < df.length ∧ b ∈ obAt cfg df i := by
  simp only [identify_order_blocks, List.mem_flatMap, List.mem_range]
  constructor
  · rintro ⟨i, hi, hb⟩; exact ⟨i, by omega, hb⟩
  · rintro ⟨i, hi, hb⟩; exact ⟨i, by omega, hb⟩

theorem mem_identify_fair_value_gaps (cfg : TradingConfig) (df : List Candle)
    (g : FairValueGap) :
    g ∈ identify_fair_value_gaps cfg df
      ↔ ∃ i, 1 ≤ i ∧ i + 1 < df.length ∧ g ∈ fvgAt cfg df i := by
  simp only [identify_fair_value_gaps, List.mem_flatMap, List.mem_range'_1]
  constructor
  · rintro ⟨i, hi, hb⟩; exact ⟨i, hi.1, by omega, hb⟩
  · rintro ⟨i, h1, hi, hb⟩; exact ⟨i, ⟨h1, by omega⟩, hb⟩

/-- C6: a bullish order block with bounds `high[i]`/`low[i]` and
timestamp `timestamp[i]` is emitted exactly when candle `i` is bullish,
candle `i+1` is bearish, and `(high[i+1]-low[i+1])/low[i+1]` strictly
exceeds `LIQUIDITY_THRESHOLD`; the bearish block mirrors the candle
directions with the same range test; and a range ratio exactly equal to
the threshold produces no order block at that index. -/
theorem order_blocks_characterization (cfg : TradingConfig) (df : List Candle)
    (_hlow : ∀ c ∈ df, 0 < c.low) (top bottom ts : ℚ) :
    ((⟨PatternKind.bullish, top, bottom, ts⟩ : OrderBlock) ∈ identify_order_blocks cfg df
      ↔ ∃ i, i + 1 < df.length ∧
          (df.getD i dC).open_price < (df.getD i dC).close ∧
          (df.getD (i + 1) dC).close < (df.getD (i + 1) dC).open_price ∧
          cfg.LIQUIDITY_THRESHOLD
            < ((df.getD (i + 1) dC).high - (df.getD (i + 1) dC).low)
                / (df.getD (i + 1) dC).low ∧
          top = (df.getD i dC).high ∧ bottom = (df.getD i dC).low ∧
          ts = (df.getD i dC).timestamp) ∧
    ((⟨PatternKind.bearish, top, bottom, ts⟩ : OrderBlock) ∈ identify_order_blocks cfg df
      ↔ ∃ i, i + 1 < df.length ∧
          (df.getD i dC).close < (df.getD i dC).open_price ∧
          (df.getD (i + 1) dC).open_price < (df.getD (i + 1) dC).close ∧
          cfg.LIQUIDITY_THRESHOLD
            < ((df.getD (i + 1) dC).high - (df.getD (i + 1) dC).low)
                / (df.getD (i + 1) dC).low ∧
          top = (df.getD i dC).high ∧ bottom = (df.getD i dC).low ∧
          ts = (df.getD i dC).timestamp) ∧
    (∀ i, i + 1 < df.length →
      ((df.getD (i + 1) dC).high - (df.getD (i + 1) dC).low) / (df.getD (i + 1) dC).low
          = cfg.LIQUIDITY_THRESHOLD →
      obAt cfg df i = []) := by
  refine ⟨?_, ?_, ?_⟩
  · rw [mem_identify_order_blocks]
    apply exists_congr; intro i
    apply and_congr_right; intro hi
    simp only [obAt, List.mem_append, mem_ite_singleton, OrderBlock.mk.injEq]
    constructor
    · rintro (⟨⟨h1, h2, h3⟩, -, h4, h5, h6⟩ | ⟨-, hk, -⟩)
      · exact ⟨h1, h2, h3, h4, h5, h6⟩
      · exact absurd hk (by simp)
    · rintro ⟨h1, h2, h3, h4, h5, h6⟩
      exact Or.inl ⟨⟨h1, h2, h3⟩, trivial, h4, h5, h6⟩
  · rw [mem_identify_order_blocks]
    apply exists_congr; intro i
    apply and_congr_right; intro hi
    simp only [obAt, List.mem_append, mem_ite_singleton, OrderBlock.mk.injEq]
    constructor
    · rintro (⟨-, hk, -⟩ | ⟨⟨h1, h2, h3⟩, -, h4, h5, h6⟩)
      · exact absurd hk (by simp)
      · exact ⟨h1, h2, h3, h4, h5, h6⟩
    · rintro ⟨h1, h2, h3, h4, h5, h6⟩
      exact Or.inr ⟨⟨h1, h2, h3⟩, trivial, h4, h5, h6⟩
  · intro i hi heq
    have hn : ¬ cfg.LIQUIDITY_THRESHOLD
        < ((df.getD (i + 1) dC).high - (df.getD (i + 1) dC).low)
            / (df.getD (i + 1) dC).low := by
      rw [heq]; exact lt_irrefl _
    simp only [obAt]
    rw [if_neg (fun h => hn h.2.2), if_neg (fun h => hn h.2.2)]
    rfl

/-- Candle series used by the C6 witness: a bullish candle followed by
a bearish candle with a 10% range. -/
def dfOB : List Candle := [⟨0, 1, 2, 1, 2⟩, ⟨1, 2, 21/10, 1, 1⟩]

/-- C6 witness: the characterization applied at a concrete series with
positive lows yields the bullish block. -/
theorem order_blocks_characterization_witness :
    (⟨PatternKind.bullish, 2, 1, 0⟩ : OrderBlock)
      ∈ identify_order_blocks defaultConfig dfOB :=
  ((order_blocks_characterization defaultConfig dfOB
      (by norm_num [dfOB]) 2 1 0).1).mpr
    ⟨0, by norm_num [dfOB], by norm_num [dfOB, dC], by norm_num [dfOB, dC],
      by norm_num [dfOB, dC, defaultConfig], by norm_num [dfOB, dC],
      by norm_num [dfOB, dC], by norm_num [dfOB, dC]⟩

/-- C7: a bullish fair-value gap with top `low[i+1]`, bottom
`high[i-1]` and the middle candle's timestamp is emitted exactly when
`low[i+1] > high[i-1]` and `(low[i+1]-high[i-1])/high[i-1]` strictly
exceeds `IMBALANCE_THRESHOLD`; a bearish gap with top `low[i-1]`,
bottom `high[i+1]` is emitted exactly when `high[i+1] < low[i-1]` and
`(low[i-1]-high[i+1])/high[i+1]` strictly exceeds the threshold. -/
theorem fair_value_gaps_characterization (cfg : TradingConfig) (df : List Candle)
    (_hhigh : ∀ c ∈ df, 0 < c.high) (top bottom ts : ℚ) :
    ((⟨PatternKind.bullish, top, bottom, ts⟩ : FairValueGap)
        ∈ identify_fair_value_gaps cfg df
      ↔ ∃ i, 1 ≤ i ∧ i + 1 < df.length ∧
          (df.getD (i - 1) dC).high < (df.getD (i + 1) dC).low ∧
          cfg.IMBALANCE_THRESHOLD
            < ((df.getD (i + 1) dC).low - (df.getD (i - 1) dC).high)
                / (df.getD (i - 1) dC).high ∧
          top = (df.getD (i + 1) dC).low ∧ bottom = (df.getD (i - 1) dC).high ∧
          ts = (df.getD i dC).timestamp) ∧
    ((⟨PatternKind.bearish, top, bottom, ts⟩ : FairValueGap)
        ∈ identify_fair_value_gaps cfg df
      ↔ ∃ i, 1 ≤ i ∧ i + 1 < df.length ∧
          (df.getD (i + 1) dC).high < (df.getD (i - 1) dC).low ∧
          cfg.IMBALANCE_THRESHOLD
            < ((df.getD (i - 1) dC).low - (df.getD (i + 1) dC).high)
                / (df.getD (i + 1) dC).high ∧
          top = (df.getD (i - 1) dC).low ∧ bottom = (df.getD (i + 1) dC).high ∧
          ts = (df.getD i dC).timestamp) := by
  constructor
  · rw [mem_identify_fair_value_gaps]
    apply exists_congr; intro i
    apply and_congr_right; intro h1
    apply and_congr_right; intro hi
    simp only [fvgAt, List.mem_append, mem_ite_singleton, FairValueGap.mk.injEq]
    constructor
    · rintro (⟨⟨h2, h3⟩, -, h4, h5, h6⟩ | ⟨-, hk, -⟩)
      · exact ⟨h2, h3, h4, h5, h6⟩
      · exact absurd hk (by simp)
    · rintro ⟨h2, h3, h4, h5, h6⟩
      exact Or.inl ⟨⟨h2, h3⟩, trivial, h4, h5, h6⟩
  · rw [mem_identify_fair_value_gaps]
    apply exists_congr; intro i
    apply and_congr_right; intro h1
    apply and_congr_right; intro hi
    simp only [fvgAt, List.mem_append, mem_ite_singleton, FairValueGap.mk.injEq]
    constructor
    · rintro (⟨-, hk, -⟩ | ⟨⟨h2, h3⟩, -, h4, h5, h6⟩)
      · exact absurd hk (by simp)
      · exact ⟨h2, h3, h4, h5, h6⟩
    · rintro ⟨h2, h3, h4, h5, h6⟩
      exact Or.inr ⟨⟨h2, h3⟩, trivial, h4, h5, h6⟩

/-- Candle series used by the C7 witness: a gap up between candle 0's
high and candle 2's low. -/
def dfFVG : List Candle := [⟨0, 1, 1, 1, 1⟩, ⟨1, 1, 1, 1, 1⟩, ⟨2, 3, 3, 2, 3⟩]

/-- C7 witness: the characterization applied at a concrete series with
positive highs yields the bullish gap. -/
theorem fair_value_gaps_characterization_witness :
    (⟨PatternKind.bullish, 2, 1, 1⟩ : FairValueGap)
      ∈ identify_fair_value_gaps defaultConfig dfFVG :=
  ((fair_value_gaps_characterization defaultConfig dfFVG
      (by norm_num [dfFVG]) 2 1 1).1).mpr
    ⟨1, le_refl 1, by norm_num [dfFVG], by norm_num [dfFVG, dC],
      by norm_num [dfFVG, dC, defaultConfig], by norm_num [dfFVG, dC],
      by norm_num [dfFVG, dC], by norm_num [dfFVG, dC]⟩

theorem mem_identify_liquidity_levels (df : List Candle) (lvl : LiquidityLevel) :
    lvl ∈ identify_liquidity_levels df
      ↔ ∃ i, 5 ≤ i ∧ i + 5 < df.length ∧ lvl ∈ llAt df i := by
  simp only [identify_liquidity_levels, List.mem_flatMap, List.mem_range'_1]
  constructor
  · rintro ⟨i, hi, hb⟩; exact ⟨i, hi.1, by omega, hb⟩
  · rintro ⟨i, h5, hlen, hb⟩; exact ⟨i, ⟨h5, by omega⟩, hb⟩

/-- C8: liquidity-level detection evaluates exactly the indices `i`
with `5 ≤ i < len - 5`, marking a resistance iff `high[i]` strictly
exceeds the 5 highs on each side and a support under the symmetric
condition on `low`; any series shorter than 11 candles yields an empty
result; and an 11-candle series single-peaked at its center yields
exactly one resistance level, at the center. -/
theorem liquidity_levels_characterization (df : List Candle) (p ts : ℚ) :
    ((⟨LevelKind.resistance, p, ts⟩ : LiquidityLevel) ∈ identify_liquidity_levels df
      ↔ ∃ i, 5 ≤ i ∧ i + 5 < df.length ∧
          (∀ j ∈ List.range' (i - 5) 5, (df.getD j dC).high < (df.getD i dC).high) ∧
          (∀ j ∈ List.range' (i + 1) 5, (df.getD j dC).high < (df.getD i dC).high) ∧
          p = (df.getD i dC).high ∧ ts = (df.getD i dC).timestamp) ∧
    ((⟨LevelKind.support, p, ts⟩ : LiquidityLevel) ∈ identify_liquidity_levels df
      ↔ ∃ i, 5 ≤ i ∧ i + 5 < df.length ∧
          (∀ j ∈ List.range' (i - 5) 5, (df.getD i dC).low < (df.getD j dC).low) ∧
          (∀ j ∈ List.range' (i + 1) 5, (df.getD i dC).low < (df.getD j dC).low) ∧
          p = (df.getD i dC).low ∧ ts = (df.getD i dC).timestamp) ∧
    (df.length < 11 → identify_liquidity_levels df = []) ∧
    (df.length = 11 →
      (∀ j, j < 11 → j ≠ 5 → (df.getD j dC).high < (df.getD 5 dC).high) →
      (identify_liquidity_levels df).filter
          (fun l => decide (l.kind = LevelKind.resistance))
        = [⟨LevelKind.resistance, (df.getD 5 dC).high, (df.getD 5 dC).timestamp⟩]) := by
  refine ⟨?_, ?_, ?_, ?_⟩
  · rw [mem_identify_liquidity_levels]
    apply exists_congr; intro i
    apply and_congr_right; intro h5
    apply and_congr_right; intro hlen
    simp only [llAt, llAtCandle, List.mem_append, mem_ite_singleton,
      Bool.and_eq_true, List.all_eq_true, decide_eq_true_eq,
      LiquidityLevel.mk.injEq]
    constructor
    · rintro (⟨⟨h1, h2⟩, -, h3, h4⟩ | ⟨-, hk, -⟩)
      · exact ⟨h1, h2, h3, h4⟩
      · exact absurd hk (by simp)
    · rintro ⟨h1, h2, h3, h4⟩
      exact Or.inl ⟨⟨h1, h2⟩, trivial, h3, h4⟩
  · rw [mem_identify_liquidity_levels]
    apply exists_congr; intro i
    apply and_congr_right; intro h5
    apply and_congr_right; intro hlen
    simp only [llAt, llAtCandle, List.mem_append, mem_ite_singleton,
      Bool.and_eq_true, List.all_eq_true, decide_eq_true_eq,
      LiquidityLevel.mk.injEq]
    constructor
    · rintro (⟨-, hk, -⟩ | ⟨⟨h1, h2⟩, -, h3, h4⟩)
      · exact absurd hk (by simp)
      · exact ⟨h1, h2, h3, h4⟩
    · rintro ⟨h1, h2, h3, h4⟩
      exact Or.inr ⟨⟨h1, h2⟩, trivial, h3, h4⟩
  · intro h
    unfold identify_liquidity_levels
    have h10 : df.length - 10 = 0 := by omega
    rw [h10]
    rfl
  · intro hlen hpeak
    have h1 : identify_liquidity_levels df = llAt df 5 ++ [] := by
      unfold identify_liquidity_levels
      rw [hlen]
      rfl
    have hres : (((List.range' (5 - 5) 5).all
          fun j => decide ((df.getD j dC).high < (df.getD 5 dC).high)) &&
        ((List.range' (5 + 1) 5).all
          fun j => decide ((df.getD j dC).high < (df.getD 5 dC).high))) = true := by
      simp only [Bool.and_eq_true, List.all_eq_true, decide_eq_true_eq]
      constructor <;> intro j hj <;>
        refine hpeak j ?_ ?_ <;> simp only [List.mem_range'_1] at hj <;> omega
    rw [h1]
    unfold llAt llAtCandle
    rw [if_pos hres]
    split_ifs with hs <;> simp [List.filter]

/-- The 11-candle single-peak series for the C8 witness: all highs are
1 except the center candle's high of 10. -/
def dfLL : List Candle :=
  [⟨0, 1, 1, 0, 1⟩, ⟨1, 1, 1, 0, 1⟩, ⟨2, 1, 1, 0, 1⟩, ⟨3, 1, 1, 0, 1⟩,
   ⟨4, 1, 1, 0, 1⟩, ⟨5, 1, 10, 0, 1⟩, ⟨6, 1, 1, 0, 1⟩, ⟨7, 1, 1, 0, 1⟩,
   ⟨8, 1, 1, 0, 1⟩, ⟨9, 1, 1, 0, 1⟩, ⟨10, 1, 1, 0, 1⟩]

/-- C8 witness: the short-series clause applied to a 1-candle series
and the single-peak clause applied to `dfLL`. -/
theorem liquidity_levels_characterization_witness :
    (identify_liquidity_levels [(⟨0, 1, 1, 0, 1⟩ : Candle)] = []) ∧
    ((identify_liquidity_levels dfLL).filter
        (fun l => decide (l.kind = LevelKind.resistance))
      = [⟨LevelKind.resistance, (dfLL.getD 5 dC).high, (dfLL.getD 5 dC).timestamp⟩]) :=
  ⟨(liquidity_levels_characterization [⟨0, 1, 1, 0, 1⟩] 0 0).2.2.1 (by norm_num),
   (liquidity_levels_characterization dfLL 0 0).2.2.2 (by norm_num [dfLL])
      (by intro j hj hne
          interval_cases j <;> norm_num [dfLL, dC] at hne ⊢)⟩

/-! ### Totality of the detectors under positive prices -/

theorem foldrE_eq {α : Type} (f : ℕ → Option (List α)) (g : ℕ → List α) :
    ∀ l : List ℕ, (∀ i ∈ l, f i = some (g i)) →
      (l.foldr (fun i acc => do pure ((← f i) ++ (← acc))) (some [])
        : Option (List α)) = some (l.flatMap g) := by
  intro l
  induction l with
  | nil => intro _; rfl
  | cons i rest ih =>
    intro h
    have hi := h i (List.mem_cons_self i rest)
    have hrest := ih fun j hj => h j (List.mem_cons_of_mem i hj)
    simp only [List.foldr_cons, hrest, hi, List.flatMap_cons]
    rfl

theorem obAtE_eq (cfg : TradingConfig) (df : List Candle) (i : ℕ)
    (h1 : (df.getD (i + 1) dC).low ≠ 0) :
    obAtE cfg df i = some (obAt cfg df i) := by
  simp only [obAtE, obAt]
  split_ifs <;> first | rfl | tauto

theorem fvgAtE_eq (cfg : TradingConfig) (df : List Candle) (i : ℕ)
    (h1 : (df.getD (i - 1) dC).high ≠ 0) (h2 : (df.getD (i + 1) dC).high ≠ 0) :
    fvgAtE cfg df i = some (fvgAt cfg df i) := by
  simp only [fvgAtE, fvgAt]
  split_ifs <;> first | rfl | tauto

theorem getD_mem_of_lt {df : List Candle} {i : ℕ} (h : i < df.length) :
    df.getD i dC ∈ df := by
  rw [List.getD_eq_getElem df dC h]
  exact List.getElem_mem h

theorem identify_order_blocksE_eq (cfg : TradingConfig) (df : List Candle)
    (hlow : ∀ c ∈ df, 0 < c.low) :
    identify_order_blocksE cfg df = some (identify_order_blocks cfg df) := by
  unfold identify_order_blocksE identify_order_blocks
  rw [foldrE_eq (obAtE cfg df) (obAt cfg df)]
  intro i hi
  simp only [List.mem_range] at hi
  have hmem : df.getD (i + 1) dC ∈ df := getD_mem_of_lt (by omega)
  exact obAtE_eq cfg df i (ne_of_gt (hlow _ hmem))

theorem identify_fair_value_gapsE_eq (cfg : TradingConfig) (df : List Candle)
    (hhigh : ∀ c ∈ df, 0 < c.high) :
    identify_fair_value_gapsE cfg df = some (identify_fair_value_gaps cfg df) := by
  unfold identify_fair_value_gapsE identify_fair_value_gaps
  rw [foldrE_eq (fvgAtE cfg df) (fvgAt cfg df)]
  intro i hi
  simp only [List.mem_range'_1] at hi
  have hm1 : df.getD (i - 1) dC ∈ df := getD_mem_of_lt (by omega)
  have hm2 : df.getD (i + 1) dC ∈ df := getD_mem_of_lt (by omega)
  exact fvgAtE_eq cfg df i (ne_of_gt (hhigh _ hm1)) (ne_of_gt (hhigh _ hm2))

/-- A window whose second candle is bearish with a zero Low: the
order-block range division hits a zero divisor. -/
def dfZero : List Candle := [⟨0, 1, 2, 1, 2⟩, ⟨1, 1, 2, 0, 0⟩]

/-- C10: order-block detection divides by `low[i+1]` and fair-value-gap
detection divides by `high[i±1]` with no zero guard; whenever every Low
and High in the window is strictly positive the combined analysis is
total (the `ZeroDivisionError` branch of the exception-tracking model is
unreachable and the result agrees with the pure embedding), and the
positivity precondition is required: a window containing a zero Low
reaches the error branch. -/
theorem analyze_patterns_total_iff_positive (cfg : TradingConfig) (df : List Candle) :
    ((∀ c ∈ df, 0 < c.low ∧ 0 < c.high) →
      analyze_patternsE cfg df = some (analyze_patterns cfg df)) ∧
    analyze_patternsE defaultConfig dfZero = none := by
  constructor
  · intro h
    unfold analyze_patternsE analyze_patterns
    rw [identify_order_blocksE_eq cfg df fun c hc => (h c hc).1,
      identify_fair_value_gapsE_eq cfg df fun c hc => (h c hc).2]
    rfl
  · have hob : obAtE defaultConfig dfZero 0 = none := by
      simp only [obAtE]
      rw [if_pos (by norm_num [dfZero, dC]), if_pos (by norm_num [dfZero, dC])]
      rfl
    unfold analyze_patternsE identify_order_blocksE
    rw [show dfZero.length - 1 = 1 from rfl, show List.range 1 = [0] from rfl]
    simp only [List.foldr_cons, List.foldr_nil, hob, Option.none_bind]
    rfl

/-- C10 witness: the totality direction applied at a concrete
positive-price series. -/
theorem analyze_patterns_total_iff_positive_witness :
    analyze_patternsE defaultConfig dfOB = some (analyze_patterns defaultConfig dfOB) :=
  (analyze_patterns_total_iff_positive defaultConfig dfOB).1 (by norm_num [dfOB])

/-! ### A run from a non-negative balance whose open operation leaves a
negative balance -/

/-- A snapshot whose last order block and last fair-value gap are both
bearish: two sell votes. -/
def sellSnap : PatternSnapshot :=
  ⟨[], [⟨PatternKind.bearish, 2, 1, 0⟩], [⟨PatternKind.bearish, 2, 1, 0⟩]⟩

/-- The short position opened on the first bar of the gap run: entry
100, stop 102, target 96, quantity 1, cost 100. -/
def shortPos : Position := ⟨Side.SELL, 100, 102, 96, 1, 100, [sellSnap], 0⟩

/-- The trade record produced when the short is stopped out by a gap to
10201: pnl `(100 - 10201) * 1 = -10101`. -/
def shortTrade : Trade :=
  ⟨"BTCUSDT", Side.SELL, 100, 10201, 1, -10101, -10101, 0, 1,
   CloseReason.stopLoss, [sellSnap]⟩

/-- The state after the gap-loss close: cash balance
`9900 + 100 - 10101 = -101`, no open positions. -/
def gapSt : BacktestState := ⟨-101, [], [shortTrade]⟩

/-- The three bars of the gap run: open a short at 100, gap to 10201
through the stop, then a bar with two buy votes. -/
def gapBars : List BarInput :=
  [⟨"BTCUSDT", [sellSnap], 100, 0⟩, ⟨"BTCUSDT", [], 10201, 1⟩,
   ⟨"BTCUSDT", [cexSnap], 100, 2⟩]

/-- C9 (counterexample): a run starting from the non-negative balance
10000 reaches, after two bars (short opened at 100, stopped out by a
gap to 10201), the negative balance -101 with no open position; the
third bar — no open position, capacity free, two buy votes — is an
open operation, and after that open operation the cash balance is
negative.  The run-level consequence of the claim is therefore false;
only per-operation preservation holds. -/
theorem run_level_open_nonnegativity_fails :
    (0 : ℚ) ≤ (⟨10000, [], []⟩ : BacktestState).balance ∧
    processBars defaultConfig ⟨10000, [], []⟩ (gapBars.take 2) = gapSt ∧
    posLookup "BTCUSDT" gapSt.positions = none ∧
    gapSt.positions.length < defaultConfig.MAX_POSITIONS ∧
    2 ≤ (countVotes [cexSnap]).1 ∧
    processBars defaultConfig ⟨10000, [], []⟩ gapBars
      = open_position defaultConfig gapSt "BTCUSDT" Side.BUY 100 2 [cexSnap] ∧
    (open_position defaultConfig gapSt "BTCUSDT" Side.BUY 100 2 [cexSnap]).balance < 0 := by
  have hk : ¬ (PatternKind.bearish = PatternKind.bullish) := by decide
  have hside : ¬ (Side.SELL = Side.BUY) := by decide
  have h1 : processBar defaultConfig ⟨10000, [], []⟩ "BTCUSDT" [sellSnap] 100 0
      = ⟨9900, [("BTCUSDT", shortPos)], []⟩ := by
    norm_num [processBar, posLookup, countVotes, snapshotVotes, sellSnap,
      open_position, calculate_position_size, posInsert, defaultConfig, shortPos,
      hk, hside]
  have h2 : processBar defaultConfig ⟨9900, [("BTCUSDT", shortPos)], []⟩
      "BTCUSDT" [] 10201 1 = gapSt := by
    norm_num [processBar, posLookup, shortPos, close_position, trade_pnl, mkTrade,
      posErase, countVotes, gapSt, shortTrade, hk, hside]
  have h3 : processBars defaultConfig ⟨10000, [], []⟩ gapBars
      = processBar defaultConfig gapSt "BTCUSDT" [cexSnap] 100 2 := by
    simp only [processBars, gapBars, List.foldl_cons, List.foldl_nil]
    rw [h1, h2]
  have h2' : processBars defaultConfig ⟨10000, [], []⟩ (gapBars.take 2) = gapSt := by
    simp only [processBars, gapBars, List.take, List.foldl_cons, List.foldl_nil]
    rw [h1, h2]
  refine ⟨by norm_num, h2', rfl, by decide, by decide, ?_, ?_⟩
  · rw [h3]
    rfl
  · unfold open_position
    rw [if_neg (by decide),
      if_pos (by norm_num [calculate_position_size, gapSt, defaultConfig])]
    norm_num [gapSt]

end AlTB
